import Mathlib

/-!
Shallow embedding of the MACE-JAX model core and the claims stated about it.

Sources embedded:
* `mace_jax/modules/models.py` — `GeneralMACE.__init__`, `GeneralMACE.__call__`,
  `MACE.__init__`, `MACE.__call__`;
* `mace_jax/tools/gin_model.py` — the `model_` closure and the `num_species`
  consistency check of `model`;
* `mace_jax/tools/gin_functions.py` — `reload`.

The building blocks imported by `models.py` from `mace_jax/modules/blocks.py`
and `mace_jax/modules/utils.py` (interaction blocks, product basis, readouts,
`safe_norm`, `get_edge_relative_vectors`, `sum_nodes_of_the_same_graph`,
`ScaleShiftBlock`) are not part of the available sources; they are either kept
abstract (fields of `GMBlocks`) or modelled from the specification, as marked
in their doc comments.  JAX array arithmetic is embedded over `ℝ`;
`jax.grad` is embedded as the mathematical partial derivative of the embedded
energy expression (`pderiv`).
-/

/-- A parameter tree: model of a JAX pytree of parameters, as handled by
`reload` in `gin_functions.py`. -/
inductive PTree where
  | leaf : ℤ → PTree
  | node : PTree → PTree → PTree
deriving DecidableEq

/-- The shape of a parameter tree with leaf values erased: model of
`jax.tree_util.tree_structure`. -/
inductive PShape where
  | leaf : PShape
  | node : PShape → PShape → PShape
deriving DecidableEq

/-- Structure of a parameter tree (leaf payloads erased). -/
def tree_structure : PTree → PShape
  | .leaf _ => .leaf
  | .node l r => .node (tree_structure l) (tree_structure r)

/-- Embedding of `reload` (`gin_functions.py`, lines 61-78).  Given the freshly
initialized parameters and the optionally loaded parameters from `path`, it
returns the parameters the function hands back together with the flag telling
whether the incompatibility warning was logged.  The source logs a warning when
the tree structures differ and then returns `new_params` unconditionally. -/
def reload (params : PTree) (loaded : Option PTree) : PTree × Bool :=
  match loaded with
  | none => (params, false)
  | some new_params =>
      (new_params, decide (tree_structure params ≠ tree_structure new_params))

/-- An irrep is a degree together with an even-parity flag; an irreps signature
is a list of (multiplicity, irrep) pairs, as in `e3nn.Irreps`. -/
abbrev IrrepsList := List (ℕ × (ℕ × Bool))

/-- Total multiplicity of the scalar irrep `0e` in an irreps signature:
embedding of `hidden_irreps.count(e3nn.Irrep("0e"))` (`models.py`, line 56). -/
def irreps_count_0e (irreps : IrrepsList) : ℕ :=
  ((irreps.filter (fun p => decide (p.2 = (0, true)))).map (fun p => p.1)).sum

/-- Embedding of the multiplicity check in `GeneralMACE.__init__`
(`models.py`, lines 56-60): `num_features` is the `0e` count and construction
raises `ValueError` unless every entry of `hidden_irreps` has multiplicity
equal to `num_features`. -/
def GeneralMACE_check_hidden (hidden_irreps : IrrepsList) : Except String ℕ :=
  let num_features := irreps_count_0e hidden_irreps
  if hidden_irreps.all (fun p => decide (p.1 = num_features)) then
    Except.ok num_features
  else
    Except.error "All hidden irrep must have the same multiplicity"

/-- Embedding of the `num_species` consistency check of `model`
(`gin_model.py`, lines 167-179): construction raises `ValueError` whenever a
species index of the training data is not below `num_species`. -/
def model_check_num_species (species_data : List ℕ) (num_species : ℕ) :
    Except String Unit :=
  if species_data.all (fun z => decide (z < num_species)) then
    Except.ok ()
  else
    Except.error "max species >= num_species"

/-- Whether an `Except` carries an error. -/
def is_error {ε : Type u} {α : Type v} : Except ε α → Bool
  | .error _ => true
  | .ok _ => false

/-- The evaluation-time error the specification calls `DomainError`. -/
structure DomainError where
  message : String

noncomputable section

/-- Modelled from the spec: `safe_norm` (imported by `models.py` from
`mace_jax/modules/utils.py`, whose source is not available) — "a
numerically-safe normalization that substitutes a small nonzero denominator"
for near-zero-length vectors. -/
def safe_norm (eps : ℝ) (v : Fin 3 → ℝ) : ℝ :=
  if Real.sqrt (∑ c, v c ^ 2) ≤ eps then eps else Real.sqrt (∑ c, v c ^ 2)

variable {N E G W : ℕ} {V A F : Type} [AddCommGroup V] [Module ℝ V]

/-- Edge lengths, `models.py` line 104: `lengths = safe_norm(vectors, axis=-1)`. -/
def edge_lengths (eps : ℝ) (vectors : Fin E → Fin 3 → ℝ) : Fin E → ℝ :=
  fun e => safe_norm eps (vectors e)

/-- Edge angular features, `models.py` lines 105-110: the fixed projection
(abstracted as `sh`) applied to `vectors / lengths`. -/
def edge_attrs (eps : ℝ) (sh : (Fin 3 → ℝ) → A) (vectors : Fin E → Fin 3 → ℝ) :
    Fin E → A :=
  fun e => sh (fun c => vectors e c / edge_lengths eps vectors e)

/-- Edge radial features, `models.py` line 111: the radial embedding
(abstracted as `radial`) applied to the lengths. -/
def edge_feats (eps : ℝ) (radial : ℝ → F) (vectors : Fin E → Fin 3 → ℝ) :
    Fin E → F :=
  fun e => radial (edge_lengths eps vectors e)

/-- The edge-embedding step of `GeneralMACE.__call__` (`models.py`,
lines 104-114) with the error channel the claims attribute to it made
explicit.  The source has no failure path here: the result is always `ok`. -/
def compute_edge_embeddings (eps : ℝ) (sh : (Fin 3 → ℝ) → A) (radial : ℝ → F)
    (vectors : Fin E → Fin 3 → ℝ) :
    Except DomainError ((Fin E → A) × (Fin E → F)) :=
  Except.ok (edge_attrs eps sh vectors, edge_feats eps radial vectors)

/-- Static configuration of `GeneralMACE` (`models.py`, `__init__`).
`norm_eps` is Modelled from the spec: the safe-norm epsilon used by
`safe_norm`. -/
structure GMConfig where
  num_interactions : ℕ
  correlation : ℕ
  max_poly_order : Option ℕ
  lmax : ℕ
  epsilon : Option ℝ
  avg_num_neighbors : ℝ
  norm_eps : ℝ

/-- The learnable / fixed building blocks used by `GeneralMACE.__call__`.
Their sources (`mace_jax/modules/blocks.py`) are not available, so they are
abstract here; the readout pieces are Modelled from the spec: the linear
readout is "a single learned linear map" and the nonlinear readout is "a
linear map to an intermediate scalar-only hidden width, an elementwise
nonlinear activation, then a linear map to the scalar output". -/
structure GMBlocks (N E W : ℕ) (V A F : Type) [AddCommGroup V] [Module ℝ V] where
  node_embedding : ℕ → V
  spherical_harmonics : (Fin 3 → ℝ) → A
  radial_embedding : ℝ → F
  inter_first : (Fin N → ℕ) → (Fin N → V) → (Fin E → A) → (Fin E → F) →
      (Fin E → Fin N) → (Fin E → Fin N) → Fin N → V
  inter : ℕ → (Fin N → ℕ) → (Fin N → V) → (Fin E → A) → (Fin E → F) →
      (Fin E → Fin N) → (Fin E → Fin N) → (Fin N → V) × (Fin N → V)
  product_basis : ℕ → ℕ → ℕ → ℕ → (Fin N → V) → (Fin N → ℕ) → Fin N → V
  readout_linear : ℕ → V →ₗ[ℝ] ℝ
  readout_nl_lin1 : V →ₗ[ℝ] (Fin W → ℝ)
  readout_nl_lin2 : (Fin W → ℝ) →ₗ[ℝ] ℝ
  activation : ℝ → ℝ

/-- The interaction dispatch of `GeneralMACE.__call__` (`models.py`,
lines 120-141): the first layer uses `interaction_cls_first`, which has no
self-connection, later layers use `interaction_cls`, which returns one. -/
def interaction_step (blk : GMBlocks N E W V A F) (sp : Fin N → ℕ)
    (ea : Fin E → A) (ef : Fin E → F) (snd rcv : Fin E → Fin N)
    (i : ℕ) (feats : Fin N → V) : (Fin N → V) × Option (Fin N → V) :=
  if i = 0 then
    (blk.inter_first sp feats ea ef snd rcv, none)
  else
    ((blk.inter i sp feats ea ef snd rcv).1,
      some (blk.inter i sp feats ea ef snd rcv).2)

/-- The normalization applied to the interaction output (`models.py`,
lines 143-146): multiply by `epsilon` when it is set, otherwise divide by
`sqrt(avg_num_neighbors)`. -/
def normalize_feats (cfg : GMConfig) (v : V) : V :=
  match cfg.epsilon with
  | some e => e • v
  | none => (Real.sqrt cfg.avg_num_neighbors)⁻¹ • v

/-- The polynomial-order advance (`models.py`, lines 148-151). -/
def new_order (cfg : GMConfig) (order : ℕ) : ℕ :=
  match cfg.max_poly_order with
  | none => cfg.correlation * (order + cfg.lmax)
  | some cap => cfg.correlation * order + cap

/-- One iteration of the interaction loop of `GeneralMACE.__call__`
(`models.py`, lines 118-182): interaction dispatch, normalization, polynomial
order advance, product basis, self-connection addition, readout.  The state is
the pair (node features, polynomial order); the second component of the result
is this layer's readout output. -/
def GeneralMACE_layer (cfg : GMConfig) (blk : GMBlocks N E W V A F)
    (sp : Fin N → ℕ) (ea : Fin E → A) (ef : Fin E → F) (snd rcv : Fin E → Fin N)
    (i : ℕ) (st : (Fin N → V) × ℕ) : ((Fin N → V) × ℕ) × (Fin N → ℝ) :=
  let io := interaction_step blk sp ea ef snd rcv i st.1
  let feats_norm : Fin N → V := fun n => normalize_feats cfg (io.1 n)
  let order' := new_order cfg st.2
  let feats_prod := blk.product_basis i cfg.correlation order' st.2 feats_norm sp
  let feats' : Fin N → V :=
    match io.2 with
    | some sc => fun n => feats_prod n + sc n
    | none => feats_prod
  ((feats', order'),
    if i < cfg.num_interactions - 1 then
      fun n => blk.readout_linear i (feats' n)
    else
      fun n => blk.readout_nl_lin2
        (fun m => blk.activation (blk.readout_nl_lin1 (feats' n) m)))

/-- Variant of `interaction_step` with the normalization already applied
inside each branch; used to state that the configured normalization acts
identically on the first (no self-connection) and the residual branches. -/
def interaction_step_scaled (cfg : GMConfig) (blk : GMBlocks N E W V A F)
    (sp : Fin N → ℕ) (ea : Fin E → A) (ef : Fin E → F) (snd rcv : Fin E → Fin N)
    (i : ℕ) (feats : Fin N → V) : (Fin N → V) × Option (Fin N → V) :=
  if i = 0 then
    (fun n => normalize_feats cfg (blk.inter_first sp feats ea ef snd rcv n), none)
  else
    (fun n => normalize_feats cfg ((blk.inter i sp feats ea ef snd rcv).1 n),
      some (blk.inter i sp feats ea ef snd rcv).2)

/-- `GeneralMACE_layer` rewritten with the normalization pushed into each
interaction branch (the claim-side phrasing of the loop body). -/
def GeneralMACE_layer_scaled_per_branch (cfg : GMConfig)
    (blk : GMBlocks N E W V A F) (sp : Fin N → ℕ) (ea : Fin E → A)
    (ef : Fin E → F) (snd rcv : Fin E → Fin N)
    (i : ℕ) (st : (Fin N → V) × ℕ) : ((Fin N → V) × ℕ) × (Fin N → ℝ) :=
  let io := interaction_step_scaled cfg blk sp ea ef snd rcv i st.1
  let order' := new_order cfg st.2
  let feats_prod := blk.product_basis i cfg.correlation order' st.2 io.1 sp
  let feats' : Fin N → V :=
    match io.2 with
    | some sc => fun n => feats_prod n + sc n
    | none => feats_prod
  ((feats', order'),
    if i < cfg.num_interactions - 1 then
      fun n => blk.readout_linear i (feats' n)
    else
      fun n => blk.readout_nl_lin2
        (fun m => blk.activation (blk.readout_nl_lin1 (feats' n) m)))

/-- The loop state before layer `i`: node features start at the node embedding
(`models.py`, line 98) and the polynomial order starts at 0 (line 99). -/
def GeneralMACE_state (cfg : GMConfig) (blk : GMBlocks N E W V A F)
    (sp : Fin N → ℕ) (ea : Fin E → A) (ef : Fin E → F)
    (snd rcv : Fin E → Fin N) : ℕ → (Fin N → V) × ℕ
  | 0 => (fun n => blk.node_embedding (sp n), 0)
  | i + 1 =>
      (GeneralMACE_layer cfg blk sp ea ef snd rcv i
        (GeneralMACE_state cfg blk sp ea ef snd rcv i)).1

/-- The readout contribution of layer `i` (`models.py`, lines 167-182). -/
def GeneralMACE_output (cfg : GMConfig) (blk : GMBlocks N E W V A F)
    (sp : Fin N → ℕ) (ea : Fin E → A) (ef : Fin E → F)
    (snd rcv : Fin E → Fin N) (i : ℕ) : Fin N → ℝ :=
  (GeneralMACE_layer cfg blk sp ea ef snd rcv i
    (GeneralMACE_state cfg blk sp ea ef snd rcv i)).2

/-- Embedding of `GeneralMACE.__call__` (`models.py`, lines 90-184): the edge
embeddings are computed from the relative vectors, the interaction loop is
run, and the per-layer readout outputs are stacked in layer order. -/
def GeneralMACE_call (cfg : GMConfig) (blk : GMBlocks N E W V A F)
    (vectors : Fin E → Fin 3 → ℝ) (node_specie : Fin N → ℕ)
    (senders receivers : Fin E → Fin N) : List (Fin N → ℝ) :=
  (List.range cfg.num_interactions).map
    (GeneralMACE_output cfg blk node_specie
      (edge_attrs cfg.norm_eps blk.spherical_harmonics vectors)
      (edge_feats cfg.norm_eps blk.radial_embedding vectors)
      senders receivers)

/-- An atomic graph: species, directed edges, periodic shifts (the
`shifts`-dot-`cell` contribution to each edge vector), and the structure each
node belongs to. -/
structure AtomicGraph (N E G : ℕ) where
  species : Fin N → ℕ
  senders : Fin E → Fin N
  receivers : Fin E → Fin N
  shifts : Fin E → Fin 3 → ℝ
  graph_index : Fin N → Fin G

/-- Modelled from the spec: `get_edge_relative_vectors` (imported by
`models.py` from `mace_jax/tools`, source not available) — "relative-vector
(receiver position − sender position, adjusted by periodic-boundary shift if
applicable)". -/
def get_edge_relative_vectors (g : AtomicGraph N E G)
    (positions : Fin N → Fin 3 → ℝ) : Fin E → Fin 3 → ℝ :=
  fun e c => positions (g.receivers e) c - positions (g.senders e) c + g.shifts e c

/-- Configuration of the `MACE` wrapper (`models.py`, lines 187-201):
the scale-shift scalars and the atomic-energies table are fixed at
construction. -/
structure MACEConfig where
  gm : GMConfig
  scale : ℝ
  shift : ℝ
  atomic_energies : ℕ → ℝ

/-- Modelled from the spec: `ScaleShiftBlock` (from `mace_jax/modules/blocks.py`,
source not available) — "applies `shift + scale × x` to the learned per-node
energy sum". -/
def ScaleShiftBlock (scale shift x : ℝ) : ℝ :=
  shift + scale * x

/-- Per-node energies of `MACE.__call__` (`models.py`, lines 214-222):
the atomic reference energy plus the scale-shifted sum over layers of the
readout contributions. -/
def MACE_node_energies (cfg : MACEConfig) (blk : GMBlocks N E W V A F)
    (g : AtomicGraph N E G) (positions : Fin N → Fin 3 → ℝ) : Fin N → ℝ :=
  fun k =>
    cfg.atomic_energies (g.species k) +
      ScaleShiftBlock cfg.scale cfg.shift
        (((GeneralMACE_call cfg.gm blk (get_edge_relative_vectors g positions)
            g.species g.senders g.receivers).map (fun f => f k)).sum)

/-- The `energy_fn` closure of `MACE.__call__` (`models.py`, lines 204-223):
returns the total energy together with the per-node energies. -/
def energy_fn (cfg : MACEConfig) (blk : GMBlocks N E W V A F)
    (g : AtomicGraph N E G) (positions : Fin N → Fin 3 → ℝ) :
    ℝ × (Fin N → ℝ) :=
  (∑ k, MACE_node_energies cfg blk g positions k,
    MACE_node_energies cfg blk g positions)

/-- Update one scalar coordinate of the positions array. -/
def update_pos (p : Fin N → Fin 3 → ℝ) (k : Fin N) (c : Fin 3) (t : ℝ) :
    Fin N → Fin 3 → ℝ :=
  fun j d => if j = k ∧ d = c then t else p j d

/-- The partial derivative of a scalar function of the positions with respect
to one position coordinate: embedding of one component of `jax.grad`. -/
def pderiv (f : (Fin N → Fin 3 → ℝ) → ℝ) (p : Fin N → Fin 3 → ℝ)
    (k : Fin N) (c : Fin 3) : ℝ :=
  deriv (fun t => f (update_pos p k c t)) (p k c)

/-- Modelled from the spec: `sum_nodes_of_the_same_graph` (imported by
`models.py` from `mace_jax/modules/utils.py`, source not available) — sums the
node energies of each structure into that structure's total. -/
def sum_nodes_of_the_same_graph (g : AtomicGraph N E G) (node_energies : Fin N → ℝ) :
    Fin G → ℝ :=
  fun gi => ∑ k in Finset.univ.filter (fun k => g.graph_index k = gi), node_energies k

/-- Embedding of `MACE.__call__` (`models.py`, lines 203-236): per-structure
energies and per-node forces, the forces being minus the gradient of the first
component of `energy_fn` with respect to the positions. -/
def MACE_call (cfg : MACEConfig) (blk : GMBlocks N E W V A F)
    (g : AtomicGraph N E G) (positions : Fin N → Fin 3 → ℝ) :
    (Fin G → ℝ) × (Fin N → Fin 3 → ℝ) :=
  (sum_nodes_of_the_same_graph g (energy_fn cfg blk g positions).2,
    fun k c => -(pderiv (fun q => (energy_fn cfg blk g q).1) positions k c))

/-- Per-node energies of the `model_` closure of `gin_model.py`
(lines 224-242): the layer contributions are summed, rescaled by
`mean + std * _`, and the atomic energies are added afterwards. -/
def gin_model_node_energies (mean std : ℝ) (atomic_energies : ℕ → ℝ)
    (num_layers : ℕ) (contributions : Fin N → ℕ → ℝ) (node_z : Fin N → ℕ) :
    Fin N → ℝ :=
  fun k =>
    (mean + std * ∑ i in Finset.range num_layers, contributions k i) +
      atomic_energies (node_z k)

/-- Concrete `GeneralMACE` configuration: one interaction layer. -/
def gmC : GMConfig where
  num_interactions := 1
  correlation := 3
  max_poly_order := none
  lmax := 3
  epsilon := some (1 / 2)
  avg_num_neighbors := 1
  norm_eps := 1

/-- Concrete `MACE` configuration with nonzero shift. -/
def cfgC : MACEConfig where
  gm := gmC
  scale := 1
  shift := 1
  atomic_energies := fun _ => 0

/-- Concrete all-zero blocks over scalar features. -/
def blkC : GMBlocks 1 0 1 ℝ ℝ ℝ where
  node_embedding := fun _ => 0
  spherical_harmonics := fun _ => 0
  radial_embedding := fun _ => 0
  inter_first := fun _ _ _ _ _ _ => fun _ => 0
  inter := fun _ _ _ _ _ _ _ => (fun _ => 0, fun _ => 0)
  product_basis := fun _ _ _ _ _ _ => fun _ => 0
  readout_linear := fun _ => 0
  readout_nl_lin1 := 0
  readout_nl_lin2 := 0
  activation := fun _ => 0

/-- Concrete graph: a single atom with no edges. -/
def gC : AtomicGraph 1 0 1 where
  species := fun _ => 0
  senders := fun e => Fin.elim0 e
  receivers := fun e => Fin.elim0 e
  shifts := fun e => Fin.elim0 e
  graph_index := fun _ => 0

/-- Concrete positions for the single atom. -/
def pC : Fin 1 → Fin 3 → ℝ := fun _ _ => 0

/-- Concrete angular projection used by the edge-embedding witness. -/
def shC : (Fin 3 → ℝ) → ℝ := fun w => w 0

/-- Concrete radial embedding used by the edge-embedding witness. -/
def radC : ℝ → ℝ := fun r => r

/-- Concrete edge-vector array with a single zero-length edge. -/
def vecC : Fin 1 → Fin 3 → ℝ := fun _ _ => 0

/-- The zero 3-vector. -/
def vzero : Fin 3 → ℝ := fun _ => 0

end

variable {N E G W : ℕ} {V A F : Type} [AddCommGroup V] [Module ℝ V]

lemma GeneralMACE_layer_zero_feats (cfg : GMConfig) (blk : GMBlocks N E W V A F)
    (sp : Fin N → ℕ) (ea : Fin E → A) (ef : Fin E → F) (snd rcv : Fin E → Fin N)
    (st : (Fin N → V) × ℕ) (n : Fin N) :
    (GeneralMACE_layer cfg blk sp ea ef snd rcv 0 st).1.1 n =
      blk.product_basis 0 cfg.correlation (new_order cfg st.2) st.2
        (fun m => normalize_feats cfg (blk.inter_first sp st.1 ea ef snd rcv m))
        sp n :=
  rfl

lemma GeneralMACE_layer_succ_feats (cfg : GMConfig) (blk : GMBlocks N E W V A F)
    (sp : Fin N → ℕ) (ea : Fin E → A) (ef : Fin E → F) (snd rcv : Fin E → Fin N)
    (i : ℕ) (st : (Fin N → V) × ℕ) (n : Fin N) :
    (GeneralMACE_layer cfg blk sp ea ef snd rcv (i + 1) st).1.1 n =
      blk.product_basis (i + 1) cfg.correlation (new_order cfg st.2) st.2
        (fun m => normalize_feats cfg
          ((blk.inter (i + 1) sp st.1 ea ef snd rcv).1 m)) sp n
      + (blk.inter (i + 1) sp st.1 ea ef snd rcv).2 n :=
  rfl

lemma GeneralMACE_output_readout (cfg : GMConfig) (blk : GMBlocks N E W V A F)
    (sp : Fin N → ℕ) (ea : Fin E → A) (ef : Fin E → F) (snd rcv : Fin E → Fin N)
    (i : ℕ) :
    GeneralMACE_output cfg blk sp ea ef snd rcv i =
      if i < cfg.num_interactions - 1 then
        fun n => blk.readout_linear i
          ((GeneralMACE_state cfg blk sp ea ef snd rcv (i + 1)).1 n)
      else
        fun n => blk.readout_nl_lin2 (fun m => blk.activation
          (blk.readout_nl_lin1
            ((GeneralMACE_state cfg blk sp ea ef snd rcv (i + 1)).1 n) m)) :=
  rfl

lemma GeneralMACE_output_apply (cfg : GMConfig) (blk : GMBlocks N E W V A F)
    (sp : Fin N → ℕ) (ea : Fin E → A) (ef : Fin E → F) (snd rcv : Fin E → Fin N)
    (i : ℕ) (n : Fin N) :
    GeneralMACE_output cfg blk sp ea ef snd rcv i n =
      if i < cfg.num_interactions - 1 then
        blk.readout_linear i
          ((GeneralMACE_state cfg blk sp ea ef snd rcv (i + 1)).1 n)
      else
        blk.readout_nl_lin2 (fun m => blk.activation
          (blk.readout_nl_lin1
            ((GeneralMACE_state cfg blk sp ea ef snd rcv (i + 1)).1 n) m)) := by
  rw [GeneralMACE_output_readout, ite_apply]

lemma normalize_feats_zero (cfg : GMConfig) :
    normalize_feats cfg (0 : V) = 0 := by
  rcases hE : cfg.epsilon with _ | e <;> simp [normalize_feats, hE]

lemma isolated_state_zero (cfg : GMConfig) (blk : GMBlocks N E W V A F)
    (sp : Fin N → ℕ) (ea : Fin E → A) (ef : Fin E → F) (snd rcv : Fin E → Fin N)
    (k : Fin N)
    (hIF : ∀ feats, blk.inter_first sp feats ea ef snd rcv k = 0)
    (hI1 : ∀ i feats, (blk.inter i sp feats ea ef snd rcv).1 k = 0)
    (hI2 : ∀ i feats, feats k = 0 → (blk.inter i sp feats ea ef snd rcv).2 k = 0)
    (hP : ∀ i o o' feats, feats k = 0 →
      blk.product_basis i cfg.correlation o o' feats sp k = 0) :
    ∀ i : ℕ, (GeneralMACE_state cfg blk sp ea ef snd rcv (i + 1)).1 k = 0 := by
  intro i
  induction i with
  | zero =>
      show (GeneralMACE_layer cfg blk sp ea ef snd rcv 0
        (GeneralMACE_state cfg blk sp ea ef snd rcv 0)).1.1 k = 0
      rw [GeneralMACE_layer_zero_feats]
      exact hP 0 _ _ _ (by rw [hIF, normalize_feats_zero])
  | succ m ih =>
      show (GeneralMACE_layer cfg blk sp ea ef snd rcv (m + 1)
        (GeneralMACE_state cfg blk sp ea ef snd rcv (m + 1))).1.1 k = 0
      rw [GeneralMACE_layer_succ_feats,
        hP (m + 1) _ _ _ (by rw [hI1, normalize_feats_zero]),
        hI2 (m + 1) _ ih, add_zero]

/-- C8 counterexample: with structurally incompatible loaded parameters,
`reload` returns the loaded parameters, not the freshly initialized ones —
the reload is not skipped. -/
theorem reload_incompatible_counterexample :
    (reload (.leaf 0) (some (.node (.leaf 1) (.leaf 2)))).1
      = .node (.leaf 1) (.leaf 2)
    ∧ tree_structure (.leaf 0) ≠ tree_structure (.node (.leaf 1) (.leaf 2))
    ∧ (reload (.leaf 0) (some (.node (.leaf 1) (.leaf 2)))).1 ≠ .leaf 0 := by
  refine ⟨rfl, ?_, ?_⟩ <;> decide

/-- C8 (amended): when a reload path is given, `reload` always returns the
loaded parameters; the compatibility check only controls whether the warning
is logged, and the freshly initialized parameters are kept only when no path
is given. -/
theorem reload_returns_loaded_amended (p q : PTree) :
    (reload p (some q)).1 = q
    ∧ ((reload p (some q)).2 = true ↔ tree_structure p ≠ tree_structure q)
    ∧ (reload p none).1 = p := by
  refine ⟨rfl, ?_, rfl⟩
  simp [reload]

/-- C9: construction fails whenever two entries of the hidden irreps have
different multiplicities, and likewise whenever some training-data species
index is not below `num_species`; both checks live in the construction
functions (`GeneralMACE.__init__` and `model`), not in evaluation. -/
theorem construction_time_checks (hidden : IrrepsList)
    (m1 m2 : ℕ × (ℕ × Bool)) (zs : List ℕ) (ns : ℕ)
    (h1 : m1 ∈ hidden) (h2 : m2 ∈ hidden) (hne : m1.1 ≠ m2.1)
    (hz : ∃ z ∈ zs, ns ≤ z) :
    is_error (GeneralMACE_check_hidden hidden) = true
    ∧ is_error (model_check_num_species zs ns) = true := by
  constructor
  · unfold GeneralMACE_check_hidden
    rw [if_neg]
    · rfl
    · intro hall
      have hall' := List.all_eq_true.mp hall
      have e1 := of_decide_eq_true (hall' m1 h1)
      have e2 := of_decide_eq_true (hall' m2 h2)
      exact hne (e1.trans e2.symm)
  · unfold model_check_num_species
    rw [if_neg]
    · rfl
    · intro hall
      obtain ⟨z, hzmem, hzge⟩ := hz
      have := of_decide_eq_true (List.all_eq_true.mp hall z hzmem)
      omega

/-- C9 witness: a hidden signature with multiplicities 1 and 2 is rejected,
and species data containing 5 is rejected for `num_species = 3`. -/
theorem construction_time_checks_witness :
    is_error (GeneralMACE_check_hidden [(1, (0, true)), (2, (1, false))]) = true
    ∧ is_error (model_check_num_species [5] 3) = true :=
  construction_time_checks [(1, (0, true)), (2, (1, false))]
    (1, (0, true)) (2, (1, false)) [5] 3
    (by simp) (by simp) (by norm_num) ⟨5, by simp, by norm_num⟩

/-- C7 counterexample: feeding a zero-length edge vector to the edge-embedding
step does not fail with a `DomainError`; it succeeds, with `safe_norm`
substituting the epsilon denominator. -/
theorem zero_length_edge_no_error :
    is_error (compute_edge_embeddings 1 shC radC vecC) = false
    ∧ safe_norm 1 vzero = 1 := by
  refine ⟨rfl, ?_⟩
  unfold safe_norm vzero
  rw [if_pos]
  simp [Real.sqrt_zero]

/-- C7 (amended): for near-zero-length vectors `safe_norm` substitutes the
small nonzero denominator `eps`, and the edge-embedding step of
`GeneralMACE.__call__` never surfaces a `DomainError` to the caller. -/
theorem safe_norm_substitution_amended {A F : Type} {E : ℕ} (eps : ℝ)
    (v : Fin 3 → ℝ) (hv : Real.sqrt (∑ c, v c ^ 2) ≤ eps) (heps : 0 < eps)
    (sh : (Fin 3 → ℝ) → A) (radial : ℝ → F) (vectors : Fin E → Fin 3 → ℝ) :
    safe_norm eps v = eps ∧ safe_norm eps v ≠ 0
    ∧ is_error (compute_edge_embeddings eps sh radial vectors) = false := by
  refine ⟨?_, ?_, rfl⟩
  · unfold safe_norm
    rw [if_pos hv]
  · unfold safe_norm
    rw [if_pos hv]
    exact ne_of_gt heps

/-- C7 witness: the amended statement at the zero vector with `eps = 1`. -/
theorem safe_norm_substitution_amended_witness :
    safe_norm 1 vzero = 1 ∧ safe_norm 1 vzero ≠ 0
    ∧ is_error (compute_edge_embeddings 1 shC radC vecC) = false :=
  safe_norm_substitution_amended 1 vzero
    (by unfold vzero; simp [Real.sqrt_zero]) one_pos shC radC vecC

/-- C3: the layer body equals its variant with the configured normalization
inlined into each interaction branch, so the normalization (epsilon
multiplication when `epsilon` is set, division by `sqrt(avg_num_neighbors)`
otherwise) is applied identically on the first (no self-connection) layer and
on the residual layers. -/
theorem normalization_uniform_first_and_residual (cfg : GMConfig)
    (blk : GMBlocks N E W V A F) (sp : Fin N → ℕ) (ea : Fin E → A)
    (ef : Fin E → F) (snd rcv : Fin E → Fin N) (i : ℕ) (st : (Fin N → V) × ℕ)
    (e : ℝ) (v : V) :
    GeneralMACE_layer cfg blk sp ea ef snd rcv i st
      = GeneralMACE_layer_scaled_per_branch cfg blk sp ea ef snd rcv i st
    ∧ normalize_feats {cfg with epsilon := some e} v = e • v
    ∧ normalize_feats {cfg with epsilon := none} v
        = (Real.sqrt cfg.avg_num_neighbors)⁻¹ • v := by
  refine ⟨?_, rfl, rfl⟩
  cases i <;> rfl

/-- C10: in the first layer the new node features are the product basis of the
normalized interaction output with no self-connection added; in every later
layer the self-connection is added after the product-basis block, with the
normalization applied only to the interaction output, never to the
self-connection. -/
theorem self_connection_placement (cfg : GMConfig) (blk : GMBlocks N E W V A F)
    (sp : Fin N → ℕ) (ea : Fin E → A) (ef : Fin E → F) (snd rcv : Fin E → Fin N)
    (i : ℕ) (st : (Fin N → V) × ℕ) (n : Fin N) :
    (GeneralMACE_layer cfg blk sp ea ef snd rcv 0 st).1.1 n
      = blk.product_basis 0 cfg.correlation (new_order cfg st.2) st.2
          (fun m => normalize_feats cfg (blk.inter_first sp st.1 ea ef snd rcv m))
          sp n
    ∧ (GeneralMACE_layer cfg blk sp ea ef snd rcv (i + 1) st).1.1 n
      = blk.product_basis (i + 1) cfg.correlation (new_order cfg st.2) st.2
          (fun m => normalize_feats cfg
            ((blk.inter (i + 1) sp st.1 ea ef snd rcv).1 m)) sp n
        + (blk.inter (i + 1) sp st.1 ea ef snd rcv).2 n :=
  ⟨GeneralMACE_layer_zero_feats cfg blk sp ea ef snd rcv st n,
    GeneralMACE_layer_succ_feats cfg blk sp ea ef snd rcv i st n⟩

/-- C6: the polynomial-order tracker starts at 0 before the first layer and
advances at every layer as `correlation * (order + lmax)` when no cap is
configured, and as `correlation * order + cap` when the cap `cap` is
configured. -/
theorem poly_order_recurrence (cfg : GMConfig) (blk : GMBlocks N E W V A F)
    (sp : Fin N → ℕ) (ea : Fin E → A) (ef : Fin E → F) (snd rcv : Fin E → Fin N)
    (i : ℕ) :
    (GeneralMACE_state cfg blk sp ea ef snd rcv 0).2 = 0
    ∧ (GeneralMACE_state {cfg with max_poly_order := none} blk sp ea ef snd rcv
        (i + 1)).2
      = cfg.correlation *
        ((GeneralMACE_state {cfg with max_poly_order := none} blk sp ea ef snd rcv
          i).2 + cfg.lmax)
    ∧ ∀ cap : ℕ,
        (GeneralMACE_state {cfg with max_poly_order := some cap} blk sp ea ef snd
          rcv (i + 1)).2
          = cfg.correlation *
            (GeneralMACE_state {cfg with max_poly_order := some cap} blk sp ea ef
              snd rcv i).2 + cap :=
  ⟨rfl, rfl, fun _ => rfl⟩

/-- C5: the stacked outputs contain one readout contribution per layer in
layer order; every layer below the last uses the single linear readout and the
last layer uses the linear-activation-linear nonlinear readout. -/
theorem readout_layer_selection (cfg : GMConfig) (blk : GMBlocks N E W V A F)
    (vectors : Fin E → Fin 3 → ℝ) (sp : Fin N → ℕ) (snd rcv : Fin E → Fin N)
    (i j : ℕ) :
    (GeneralMACE_call {cfg with num_interactions := i + j + 2} blk vectors sp snd
      rcv).length = i + j + 2
    ∧ (GeneralMACE_call {cfg with num_interactions := i + j + 2} blk vectors sp
        snd rcv).get? i
      = some (fun n => blk.readout_linear i
          ((GeneralMACE_state {cfg with num_interactions := i + j + 2} blk sp
            (edge_attrs cfg.norm_eps blk.spherical_harmonics vectors)
            (edge_feats cfg.norm_eps blk.radial_embedding vectors) snd rcv
            (i + 1)).1 n))
    ∧ (GeneralMACE_call {cfg with num_interactions := i + j + 2} blk vectors sp
        snd rcv).get? (i + j + 1)
      = some (fun n => blk.readout_nl_lin2 (fun m => blk.activation
          (blk.readout_nl_lin1
            ((GeneralMACE_state {cfg with num_interactions := i + j + 2} blk sp
              (edge_attrs cfg.norm_eps blk.spherical_harmonics vectors)
              (edge_feats cfg.norm_eps blk.radial_embedding vectors) snd rcv
              (i + j + 2)).1 n) m))) := by
  refine ⟨?_, ?_, ?_⟩
  · simp [GeneralMACE_call]
  · show ((List.range (i + j + 2)).map _).get? i = _
    rw [List.get?_map, List.get?_range (by omega), Option.map_some']
    rw [GeneralMACE_output_readout]
    rw [if_pos (show i <
      ({cfg with num_interactions := i + j + 2} : GMConfig).num_interactions - 1
      from by show i < i + j + 2 - 1; omega)]
  · show ((List.range (i + j + 2)).map _).get? (i + j + 1) = _
    rw [List.get?_map, List.get?_range (by omega), Option.map_some']
    rw [GeneralMACE_output_readout]
    rw [if_neg (show ¬ (i + j + 1 <
      ({cfg with num_interactions := i + j + 2} : GMConfig).num_interactions - 1)
      from by show ¬ (i + j + 1 < i + j + 2 - 1); omega)]

/-- C2: in `MACE.__call__` the per-node energy is the atomic reference energy
plus the affine map `shift + scale * s` of the learned per-node sum `s` of the
per-layer readout contributions, the reference energy being added only outside
that affine map; the `model_` closure of `gin_model.py` composes the same way
with `mean + std * s`. -/
theorem scale_shift_then_atomic_energies (cfg : MACEConfig)
    (blk : GMBlocks N E W V A F) (g : AtomicGraph N E G)
    (positions : Fin N → Fin 3 → ℝ) (k : Fin N) (mean std : ℝ)
    (aE : ℕ → ℝ) (nL : ℕ) (contribs : Fin N → ℕ → ℝ) (z : Fin N → ℕ) :
    MACE_node_energies cfg blk g positions k
      = cfg.atomic_energies (g.species k)
        + (cfg.shift + cfg.scale *
            (((GeneralMACE_call cfg.gm blk (get_edge_relative_vectors g positions)
              g.species g.senders g.receivers).map (fun f => f k)).sum))
    ∧ gin_model_node_energies mean std aE nL contribs z k
      = aE (z k) + (mean + std * ∑ i in Finset.range nL, contribs k i) := by
  constructor
  · rfl
  · unfold gin_model_node_energies
    ring

/-- C1: the driver's per-structure energy is the sum of the per-node energies
of that structure, and its force on every node is the negative partial
derivative, with respect to that node's position coordinates, of the total of
the very same per-node energies — one energy expression for both outputs. -/
theorem mace_driver_energy_forces (cfg : MACEConfig)
    (blk : GMBlocks N E W V A F) (g : AtomicGraph N E G)
    (positions : Fin N → Fin 3 → ℝ) :
    (MACE_call cfg blk g positions).1
      = sum_nodes_of_the_same_graph g
          (fun k => MACE_node_energies cfg blk g positions k)
    ∧ (MACE_call cfg blk g positions).2
      = fun k c => -(pderiv
          (fun q => ∑ jn, MACE_node_energies cfg blk g q jn) positions k c) :=
  ⟨rfl, rfl⟩

/-- C4 (amended): a node with no incident edges has energy equal to its
atomic-energy-table value plus the scale-shift of the zero learned
contribution, `shift + scale * 0`, and the force on it is zero.  The
hypotheses state the spec-described behaviour of the abstract blocks: the
interaction output at a node that receives no edge is the empty aggregation
(zero), the self-connection and the product basis vanish on zero features, and
the activation fixes zero. -/
theorem isolated_atom_energy_amended (cfg : MACEConfig)
    (blk : GMBlocks N E W V A F) (g : AtomicGraph N E G)
    (p : Fin N → Fin 3 → ℝ) (k : Fin N) (c : Fin 3)
    (hiso : ∀ e : Fin E, g.senders e ≠ k ∧ g.receivers e ≠ k)
    (hIF : ∀ (sp : Fin N → ℕ) (feats : Fin N → V) (ea : Fin E → A)
      (ef : Fin E → F) (snd rcv : Fin E → Fin N), (∀ e, rcv e ≠ k) →
      blk.inter_first sp feats ea ef snd rcv k = 0)
    (hI1 : ∀ (i : ℕ) (sp : Fin N → ℕ) (feats : Fin N → V) (ea : Fin E → A)
      (ef : Fin E → F) (snd rcv : Fin E → Fin N), (∀ e, rcv e ≠ k) →
      (blk.inter i sp feats ea ef snd rcv).1 k = 0)
    (hI2 : ∀ (i : ℕ) (sp : Fin N → ℕ) (feats : Fin N → V) (ea : Fin E → A)
      (ef : Fin E → F) (snd rcv : Fin E → Fin N), feats k = 0 →
      (blk.inter i sp feats ea ef snd rcv).2 k = 0)
    (hP : ∀ (i co o o' : ℕ) (feats : Fin N → V) (sp : Fin N → ℕ), feats k = 0 →
      blk.product_basis i co o o' feats sp k = 0)
    (hact : blk.activation 0 = 0) :
    MACE_node_energies cfg blk g p k
      = cfg.atomic_energies (g.species k) + (cfg.shift + cfg.scale * 0)
    ∧ (MACE_call cfg blk g p).2 k c = 0 := by
  have hrcv : ∀ e : Fin E, g.receivers e ≠ k := fun e => (hiso e).2
  constructor
  · have hz := isolated_state_zero cfg.gm blk g.species
      (edge_attrs cfg.gm.norm_eps blk.spherical_harmonics
        (get_edge_relative_vectors g p))
      (edge_feats cfg.gm.norm_eps blk.radial_embedding
        (get_edge_relative_vectors g p))
      g.senders g.receivers k
      (fun feats => hIF _ feats _ _ _ _ hrcv)
      (fun i feats => hI1 i _ feats _ _ _ _ hrcv)
      (fun i feats hf => hI2 i _ feats _ _ _ _ hf)
      (fun i o o' feats hf => hP i cfg.gm.correlation o o' feats _ hf)
    have hsum : ((GeneralMACE_call cfg.gm blk (get_edge_relative_vectors g p)
        g.species g.senders g.receivers).map (fun f => f k)).sum = 0 := by
      apply List.sum_eq_zero
      intro x hx
      simp only [GeneralMACE_call, List.map_map, List.mem_map,
        List.mem_range] at hx
      obtain ⟨i, hi, rfl⟩ := hx
      show GeneralMACE_output cfg.gm blk g.species
        (edge_attrs cfg.gm.norm_eps blk.spherical_harmonics
          (get_edge_relative_vectors g p))
        (edge_feats cfg.gm.norm_eps blk.radial_embedding
          (get_edge_relative_vectors g p))
        g.senders g.receivers i k = 0
      rw [GeneralMACE_output_apply]
      split
      · rw [hz i, map_zero]
      · rw [hz i]
        have h1 : (fun m => blk.activation (blk.readout_nl_lin1 (0 : V) m))
            = fun _ => (0 : ℝ) := by
          funext m
          rw [map_zero]
          simpa using hact
        rw [h1]
        exact map_zero _
    show cfg.atomic_energies (g.species k) + ScaleShiftBlock cfg.scale cfg.shift
        (((GeneralMACE_call cfg.gm blk (get_edge_relative_vectors g p) g.species
          g.senders g.receivers).map (fun f => f k)).sum) = _
    rw [hsum]
    rfl
  · have hvec : ∀ t : ℝ, get_edge_relative_vectors g (update_pos p k c t)
        = get_edge_relative_vectors g p := by
      intro t
      funext e d
      unfold get_edge_relative_vectors update_pos
      rw [if_neg (fun hcon => (hiso e).2 hcon.1),
        if_neg (fun hcon => (hiso e).1 hcon.1)]
    have hE : (fun t => (energy_fn cfg blk g (update_pos p k c t)).1)
        = fun _ => (energy_fn cfg blk g p).1 := by
      funext t
      show (∑ jn, MACE_node_energies cfg blk g (update_pos p k c t) jn)
        = ∑ jn, MACE_node_energies cfg blk g p jn
      unfold MACE_node_energies
      rw [hvec t]
    show -(pderiv (fun q => (energy_fn cfg blk g q).1) p k c) = 0
    unfold pderiv
    rw [hE, deriv_const]
    exact neg_zero

/-- C4 counterexample: for the concrete isolated atom with `shift = 1`,
`scale = 1` and atomic energy 0, the evaluated energy is 1, while
"atomic-energy-table value plus shift × 0" is 0. -/
theorem isolated_atom_energy_counterexample :
    MACE_node_energies cfgC blkC gC pC 0 = 1
    ∧ cfgC.atomic_energies (gC.species 0) + cfgC.shift * 0 = 0
    ∧ MACE_node_energies cfgC blkC gC pC 0
        ≠ cfgC.atomic_energies (gC.species 0) + cfgC.shift * 0 := by
  have h0 : ∀ ea ef : Fin 0 → ℝ,
      GeneralMACE_output cfgC.gm blkC gC.species ea ef gC.senders gC.receivers
        0 0 = 0 := by
    intro ea ef
    rw [GeneralMACE_output_apply]
    have hnl : ¬ (0 < cfgC.gm.num_interactions - 1) := by
      norm_num [cfgC, gmC]
    rw [if_neg hnl]
    show blkC.readout_nl_lin2 _ = 0
    simp [blkC]
  have hval : MACE_node_energies cfgC blkC gC pC 0 = 1 := by
    show cfgC.atomic_energies (gC.species 0) + ScaleShiftBlock cfgC.scale
        cfgC.shift (((GeneralMACE_call cfgC.gm blkC
          (get_edge_relative_vectors gC pC) gC.species gC.senders
          gC.receivers).map (fun f => f 0)).sum) = 1
    rw [show GeneralMACE_call cfgC.gm blkC (get_edge_relative_vectors gC pC)
        gC.species gC.senders gC.receivers
      = [GeneralMACE_output cfgC.gm blkC gC.species
          (edge_attrs cfgC.gm.norm_eps blkC.spherical_harmonics
            (get_edge_relative_vectors gC pC))
          (edge_feats cfgC.gm.norm_eps blkC.radial_embedding
            (get_edge_relative_vectors gC pC))
          gC.senders gC.receivers 0] from rfl]
    rw [List.map_cons, List.map_nil, List.sum_cons, List.sum_nil, h0, add_zero]
    show cfgC.atomic_energies 0 + ScaleShiftBlock cfgC.scale cfgC.shift 0 = 1
    norm_num [cfgC, ScaleShiftBlock]
  have hclaim : cfgC.atomic_energies (gC.species 0) + cfgC.shift * 0 = 0 := by
    norm_num [cfgC]
  refine ⟨hval, hclaim, ?_⟩
  rw [hval, hclaim]
  norm_num

/-- C4 witness: the amended statement evaluated at the concrete isolated
atom. -/
theorem isolated_atom_energy_amended_witness :
    MACE_node_energies cfgC blkC gC pC 0
      = cfgC.atomic_energies (gC.species 0) + (cfgC.shift + cfgC.scale * 0)
    ∧ (MACE_call cfgC blkC gC pC).2 0 0 = 0 :=
  isolated_atom_energy_amended cfgC blkC gC pC 0 0
    (fun e => Fin.elim0 e)
    (fun _ _ _ _ _ _ _ => rfl)
    (fun _ _ _ _ _ _ _ _ => rfl)
    (fun _ _ _ _ _ _ _ _ => rfl)
    (fun _ _ _ _ _ _ _ => rfl)
    rfl
